import Mathlib

/-!
Verification of the two engines in this repository:
`src/calculator.py` (a four-function calculator driven by button presses)
and `src/rock_paper_scissors.py` (a rock–paper–scissors game with running
score counters).

Python strings are embedded as `List Char`; the numeric results produced by
Python's arithmetic are embedded as exact fractions (`Frac` below).
Python's `+`, `-` and `*` on integers are exact and match the fraction
operations exactly.  Python's true division `/` returns a float; floats
(their rounding, their overflow on huge quotients, and their rendering by
`str`) are not modelled.  Consequently every statement below about the
program's displayed result is restricted to division-free expressions,
where the result is a Python `int` and the embedding is exact; division
appears elsewhere only in the failure-on-zero-divisor case, which is exact,
and in the comparison of the two embedded evaluators (program grammar
versus the spec's conventional evaluation), which share the same exact
idealisation of division.  CPython's configurable `int`/`str` digit-count
limit (3.11+) is likewise not modelled.
-/

/-- An exact, unnormalised fraction.  Fraction arithmetic is performed by
cross multiplication without reduction, so every operation is computable by
kernel reduction.  All operands entering the calculator's evaluator are
integers `⟨n, 1⟩`; only division can produce a denominator other than 1. -/
structure Frac where
  num : ℤ
  den : ℤ
deriving DecidableEq, Repr

def Frac.ofNat (n : ℕ) : Frac := ⟨(n : ℤ), 1⟩

def Frac.add (a b : Frac) : Frac := ⟨a.num * b.den + b.num * a.den, a.den * b.den⟩

def Frac.sub (a b : Frac) : Frac := ⟨a.num * b.den - b.num * a.den, a.den * b.den⟩

def Frac.mul (a b : Frac) : Frac := ⟨a.num * b.num, a.den * b.den⟩

/-- Exact fraction division.  Python's `/` on integers returns a float
approximating this exact value (or raises `OverflowError` for huge
quotients); the float itself is not modelled, so no theorem below asserts
the program's display or success on an expression containing division —
only the zero-divisor failure, which Python raises exactly, and the
evaluator-structure comparison, where both evaluators idealise division
identically. -/
def Frac.div (a b : Frac) : Frac := ⟨a.num * b.den, a.den * b.num⟩

/-- The rational value of a fraction. -/
def Frac.toRat (a : Frac) : ℚ := (a.num : ℚ) / (a.den : ℚ)

/-! ## Calculator: the expression language reachable from button presses

`calculator.py` evaluates the expression with Python's `eval` after the
glyph substitutions `×→*`, `÷→/`.  The expression strings the calculator
can build consist of decimal digit runs and the four operator characters
(never whitespace, parentheses, or a unary sign, because an operator press
is ignored unless the expression is nonempty and does not already end in an
operator).  The lexer/evaluator below embeds Python 3's `eval` on exactly
this language:

* a maximal digit run is an integer literal; Python 3 **rejects** a
  literal with a leading zero followed by a non-zero digit ("leading zeros
  in decimal integer literals are not permitted"), while all-zero literals
  such as `00` are valid (`decinteger ::= ... | "0"+`) — this is the
  `strict` flag;
* the token list must be `number (operator number)*`;
* evaluation uses the precedence grammar `arith := term ((+|-) term)*`,
  `term := number ((*|/) number)*`, each level folded left-to-right;
* division by zero is a run-time failure (`ZeroDivisionError`);
* any other character (for instance a `=` retained in the expression) is a
  syntax error.

All failures collapse to `none`, matching the single `except` clause in
`on_button_click`.
-/

inductive Op where
  | add
  | sub
  | mul
  | div
deriving DecidableEq, Repr

inductive Tok where
  | num (n : ℕ)
  | op (o : Op)
deriving DecidableEq, Repr

/-- The operator character of `+ - * /`, if any. -/
def charOp (c : Char) : Option Op :=
  if c = '+' then some Op.add
  else if c = '-' then some Op.sub
  else if c = '*' then some Op.mul
  else if c = '/' then some Op.div
  else none

/-- Numeric value of a decimal digit character. -/
def digitVal (c : Char) : ℕ := c.toNat - '0'.toNat

/-- Value of a digit run, most significant digit first. -/
def natOfDigits (ds : List Char) : ℕ :=
  ds.foldl (fun a c => a * 10 + digitVal c) 0

/-- Close a pending digit run as an integer literal.  With `strict := true`
this follows Python 3, which rejects a decimal literal with a leading zero
followed somewhere by a non-zero digit (`01`, `010`) but accepts all-zero
runs (`0`, `00`); with `strict := false` any nonempty digit run is a number
(the spec's grammar "number (operator number)*"). -/
def flushNum (strict : Bool) (buf : List Char) : Option ℕ :=
  if buf = [] then none
  else if strict ∧ buf.head? = some '0' ∧ 1 < buf.length ∧
      buf.any (fun c => c != '0') then none
  else some (natOfDigits buf)

/-- Tokenise a calculator expression (after glyph substitution) into an
alternating `number (operator number)*` token list, accumulating the
current digit run in `buf`.  Any character that is neither a digit nor one
of `+ - * /` is a syntax error, as are two adjacent operators, a leading
operator, and (in `strict` mode) a leading-zero non-zero literal. -/
def tokenizeAux (strict : Bool) (buf : List Char) : List Char → Option (List Tok)
  | [] =>
    if buf.isEmpty then some []
    else (flushNum strict buf).map (fun n => [Tok.num n])
  | c :: rest =>
    if c.isDigit then tokenizeAux strict (buf ++ [c]) rest
    else
      match charOp c with
      | some o =>
        if buf.isEmpty then none
        else
          (flushNum strict buf).bind (fun n =>
            (tokenizeAux strict [] rest).map (fun ts => Tok.num n :: Tok.op o :: ts))
      | none => none

def tokenize (strict : Bool) (cs : List Char) : Option (List Tok) :=
  tokenizeAux strict [] cs

/-- Split a token list of shape `number (operator number)*` into the pair
list after its first operand; fail on any other shape (trailing operator,
adjacent numbers, empty tail after an operator). -/
def restPairs : List Tok → Option (List (Op × ℕ))
  | [] => some []
  | Tok.op o :: Tok.num n :: rest => (restPairs rest).map (fun l => (o, n) :: l)
  | _ => none

/-- A token list as a first operand plus `(operator, operand)` pairs; the
empty expression is a syntax error. -/
def pairsOfToks : List Tok → Option (ℕ × List (Op × ℕ))
  | Tok.num n :: rest => (restPairs rest).map (fun l => (n, l))
  | _ => none

/-- Lex an expression into its first operand and `(operator, operand)`
pairs. -/
def lexChars (strict : Bool) (cs : List Char) : Option (ℕ × List (Op × ℕ)) :=
  (tokenize strict cs).bind pairsOfToks

/-- `acc + t` or `acc - t`, the pending additive operation of the
evaluator. -/
def applyAdd (acc : Frac) (isAdd : Bool) (t : Frac) : Frac :=
  if isAdd then acc.add t else acc.sub t

/-- Python's evaluation of the parsed expression, flattened into one
left-to-right pass: `term` is the multiplicative run being folded
(left-associatively), and `acc`/`isAdd` hold the additive value pending to
its left.  Division by a zero operand fails (`ZeroDivisionError`). -/
def pyEvalLoop (acc : Frac) (isAdd : Bool) (term : Frac) : List (Op × Frac) → Option Frac
  | [] => some (applyAdd acc isAdd term)
  | (Op.mul, n) :: rest => pyEvalLoop acc isAdd (term.mul n) rest
  | (Op.div, n) :: rest =>
    if n.num = 0 then none else pyEvalLoop acc isAdd (term.div n) rest
  | (Op.add, n) :: rest => pyEvalLoop (applyAdd acc isAdd term) true n rest
  | (Op.sub, n) :: rest => pyEvalLoop (applyAdd acc isAdd term) false n rest

def pyEvalPairs (n0 : Frac) (ps : List (Op × Frac)) : Option Frac :=
  pyEvalLoop (Frac.ofNat 0) true n0 ps

def fracPairs (ps : List (Op × ℕ)) : List (Op × Frac) :=
  ps.map (fun p => (p.1, Frac.ofNat p.2))

/-- The result Python's `eval` produces on a calculator expression (glyphs
already substituted), `none` on any exception. -/
def pyEvalChars (cs : List Char) : Option Frac :=
  match lexChars true cs with
  | some (n0, ps) => pyEvalPairs (Frac.ofNat n0) (fracPairs ps)
  | none => none

/-! ### Conventional arithmetic evaluation, from the spec's words

"evaluates the resulting arithmetic expression using standard operator
precedence and left-to-right associativity for same-precedence operators":
first collapse every `× ÷` run left-to-right (`phase1`), leaving only
additive items, then fold those left-to-right with `+ −` (`phase2`). -/

/-- Collapse the multiplicative runs of the expression left-to-right,
returning the leading additive item and the remaining `(isAdd, item)`
list.  Fails exactly on division by zero. -/
def phase1 (cur : Frac) : List (Op × Frac) → Option (Frac × List (Bool × Frac))
  | [] => some (cur, [])
  | (Op.mul, n) :: rest => phase1 (cur.mul n) rest
  | (Op.div, n) :: rest => if n.num = 0 then none else phase1 (cur.div n) rest
  | (Op.add, n) :: rest =>
    match phase1 n rest with
    | some (v, items) => some (cur, (true, v) :: items)
    | none => none
  | (Op.sub, n) :: rest =>
    match phase1 n rest with
    | some (v, items) => some (cur, (false, v) :: items)
    | none => none

/-- Fold the additive items left-to-right. -/
def phase2 (acc : Frac) : List (Bool × Frac) → Frac
  | [] => acc
  | (true, v) :: rest => phase2 (acc.add v) rest
  | (false, v) :: rest => phase2 (acc.sub v) rest

/-- Modelled from the spec: conventional precedence-respecting,
left-to-right evaluation of `number (operator number)*`. -/
def convEval (n0 : Frac) (ps : List (Op × Frac)) : Option Frac :=
  (phase1 n0 ps).map (fun p => phase2 p.1 p.2)

/-- Modelled from the spec: conventional evaluation of an expression
string, reading its operands by the spec's grammar (any digit run is a
number, so no leading-zero restriction). -/
def convEvalChars (cs : List Char) : Option Frac :=
  match lexChars false cs with
  | some (n0, ps) => convEval (Frac.ofNat n0) (fracPairs ps)
  | none => none

/-! ## Calculator state machine (`CalculatorApp.on_button_click`) -/

structure CalcState where
  expression : List Char
  input_var : List Char
deriving DecidableEq, Repr

/-- Initial state: `self.expression = ""`, `self.input_var = "0"`. -/
def initCalc : CalcState := ⟨[], ['0']⟩

def calcDigits : List Char := "0123456789".data

def calcOps : List Char := "+-×÷".data

/-- `self.expression.replace("×", "*").replace("÷", "/")` — each glyph is a
single character, so the two replacements are a character map. -/
def replaceGlyphs (cs : List Char) : List Char :=
  cs.map (fun c => if c = '×' then '*' else if c = '÷' then '/' else c)

/-- `self.expression and self.expression[-1] not in "+-×÷"`. -/
def canAppendOp (cs : List Char) : Bool :=
  match cs.getLast? with
  | some c => !(calcOps.contains c)
  | none => false

/-- Python's `str(result)` on the evaluated value.  Faithful exactly when
no division occurred: the result is then a Python `int` (denominator 1
here) and `str` prints its decimal digits.  Python renders any division
result as a float (`4÷1` displays "4.0", `1÷2` displays "0.5"), which
this model does not represent; the second branch is a placeholder and no
theorem below inspects the display of an expression containing
division. -/
def ratRepr (r : Frac) : List Char :=
  if r.den = 1 then (toString r.num).data
  else (toString r.num ++ "/" ++ toString r.den).data

/-- One button press of `CalculatorApp.on_button_click`. -/
def on_button_click (st : CalcState) (c : Char) : CalcState :=
  if calcDigits.contains c then
    if st.input_var = ['0'] ∨ st.expression.getLast? = some '=' then
      ⟨[c], [c]⟩
    else
      ⟨st.expression ++ [c], st.expression ++ [c]⟩
  else if calcOps.contains c then
    if canAppendOp st.expression then
      ⟨st.expression ++ [c], st.expression ++ [c]⟩
    else st
  else if c = 'C' then ⟨[], ['0']⟩
  else if c = '=' then
    match pyEvalChars (replaceGlyphs st.expression) with
    | some r => ⟨st.expression ++ ['='], ratRepr r⟩
    | none => ⟨[], "Error".data⟩
  else st

/-- Run a sequence of button presses from the initial state. -/
def runCalc (presses : List Char) : CalcState :=
  presses.foldl on_button_click initCalc

/-- A syntactically valid expression of two or more operands under the
spec's grammar (after glyph substitution): it lexes as
`number (operator number)*` with at least one operator. -/
def ValidSpecExpr (cs : List Char) : Prop :=
  ∃ n0 ps, lexChars false (replaceGlyphs cs) = some (n0, ps) ∧ ps ≠ []

/-- As `ValidSpecExpr`, but with operands valid as Python 3 integer
literals (no multi-digit operand with a leading zero). -/
def ValidPyExpr (cs : List Char) : Prop :=
  ∃ n0 ps, lexChars true (replaceGlyphs cs) = some (n0, ps) ∧ ps ≠ []

/-! ## Rock–paper–scissors (`src/rock_paper_scissors.py`)

The GUI toolkit is external: a round is driven by `play` receiving the
player's symbolic choice, with the computer's uniformly random draw
(`random.choice(CHOICES)`, always one of the three valid choices)
externalised as an explicit argument.  The blocking error dialog of
`messagebox.showerror` is modelled as the optional message returned by
`play`.  The format strings keep the source's shape; the `Frac`/rational
details of Python's `{:.1f}` float formatting are modelled as exact
round-half-even rounding of the exact rate. -/

def CHOICES : List String := ["rock", "paper", "scissors"]

/-- The `wins_over` dictionary of `decide_winner`, as the partial lookup
`wins_over.get`. -/
def wins_over (p : String) : Option String :=
  if p = "rock" then some "scissors"
  else if p = "paper" then some "rock"
  else if p = "scissors" then some "paper"
  else none

/-- Python's `str.lower()`, character by character (all strings reaching it
here are ASCII). -/
def pyLower (s : String) : String :=
  String.mk (s.data.map Char.toLower)

/-- Python's `str.title()` on the one-word choice strings: first character
upper-cased, the rest lower-cased. -/
def pyTitle (s : String) : String :=
  String.mk
    (match s.data with
     | [] => []
     | c :: cs => Char.toUpper c :: cs.map Char.toLower)

/-- `decide_winner(player, computer)`: 'win', 'lose' or 'tie' from the
player's perspective. -/
def decide_winner (player computer : String) : String :=
  let p := pyLower player
  let c := pyLower computer
  if p = c then "tie"
  else if wins_over p = some c then "win" else "lose"

/-- The domain of `random.choice(CHOICES)`. -/
inductive Choice where
  | rock
  | paper
  | scissors
deriving DecidableEq, Repr

def Choice.toStr : Choice → String
  | Choice.rock => "rock"
  | Choice.paper => "paper"
  | Choice.scissors => "scissors"

structure RPSState where
  player_score : ℕ
  computer_score : ℕ
  ties : ℕ
  total_rounds : ℕ
  score_var : String
  detailed_stats_var : String
  result_var : String
  computer_var : String
deriving DecidableEq, Repr

/-- `_format_score`, reading the two fields the method uses. -/
def format_score (p c : ℕ) : String :=
  "Player: " ++ toString p ++ "   Computer: " ++ toString c

/-- Round-half-even to the nearest integer, the rounding of Python's
`{:.1f}` format (on the exact value; the binary-float noise of the actual
`float` is below this model's abstraction level). -/
def roundHalfEven (x : ℚ) : ℤ :=
  let fl := x.floor
  let frac := x - (fl : ℚ)
  if frac < 1 / 2 then fl
  else if 1 / 2 < frac then fl + 1
  else if fl % 2 = 0 then fl else fl + 1

/-- Python's `f"{q:.1f}"` on a non-negative value: one digit after the
decimal point, round-half-even. -/
def fmt1 (q : ℚ) : String :=
  let n := roundHalfEven (q * 10)
  toString (n / 10) ++ "." ++ toString (n % 10)

/-- `_format_detailed_stats`, reading the four counters the method uses. -/
def format_detailed_stats (wins losses ties total : ℕ) : String :=
  if total = 0 then
    "Wins: 0 | Losses: 0 | Ties: 0 | Total: 0 | Win Rate: 0.0%"
  else
    "Wins: " ++ toString wins ++ " | Losses: " ++ toString losses ++
      " | Ties: " ++ toString ties ++ " | Total: " ++ toString total ++
      " | Win Rate: " ++ fmt1 ((wins : ℚ) / (total : ℚ) * 100) ++ "%"

/-- The state built by `RPSApp.__init__`: zeroed counters, score and stats
labels formatted from them, and the two placeholder texts. -/
def initRPS : RPSState :=
  { player_score := 0
    computer_score := 0
    ties := 0
    total_rounds := 0
    score_var := format_score 0 0
    detailed_stats_var := format_detailed_stats 0 0 0 0
    result_var := "Make your move!"
    computer_var := "Computer hasn't played yet." }

/-- The text of the `messagebox.showerror` dialog for an invalid choice. -/
def invalidChoiceMsg (p : String) : String :=
  "'" ++ p ++ "' is not a valid choice."

/-- `RPSApp.play`.  Returns the updated state and the error-dialog message,
if any.  The updates happen in source order: round counter, outcome branch
with its result text, computer-move text, score label, stats label. -/
def play (st : RPSState) (player_choice : String) (comp : Choice) :
    RPSState × Option String :=
  if player_choice ∉ CHOICES then (st, some (invalidChoiceMsg player_choice))
  else
    let computer_choice := comp.toStr
    let outcome := decide_winner player_choice computer_choice
    let st1 := { st with total_rounds := st.total_rounds + 1 }
    let st2 :=
      if outcome = "win" then
        { st1 with player_score := st1.player_score + 1,
                   result_var := "You win this round! 🎉" }
      else if outcome = "lose" then
        { st1 with computer_score := st1.computer_score + 1,
                   result_var := "You lose this round. 😢" }
      else
        { st1 with ties := st1.ties + 1, result_var := "It's a tie. 😐" }
    let st3 := { st2 with computer_var := "Computer chose: " ++ pyTitle computer_choice }
    let st4 := { st3 with score_var := format_score st3.player_score st3.computer_score }
    let st5 := { st4 with detailed_stats_var :=
      format_detailed_stats st4.player_score st4.computer_score st4.ties st4.total_rounds }
    (st5, none)

/-- `RPSApp.reset_score`. -/
def reset_score (st : RPSState) : RPSState :=
  let st1 := { st with player_score := 0, computer_score := 0, ties := 0, total_rounds := 0 }
  { st1 with
    score_var := format_score st1.player_score st1.computer_score
    detailed_stats_var :=
      format_detailed_stats st1.player_score st1.computer_score st1.ties st1.total_rounds
    result_var := "Scores reset. Make your move!"
    computer_var := "Computer hasn't played yet." }

/-- A user action reaching the game logic: a choice-button press (with the
computer's random draw made explicit) or a reset. -/
inductive RPSEvent where
  | play (choice : String) (comp : Choice)
  | reset

def rpsStep (st : RPSState) : RPSEvent → RPSState
  | RPSEvent.play p c => (play st p c).1
  | RPSEvent.reset => reset_score st

/-- Run a sequence of completed user actions from the freshly initialised
application state. -/
def runRPS (evs : List RPSEvent) : RPSState :=
  evs.foldl rpsStep initRPS

/-- The score invariant of the game: the round total counts the three
outcome counters, and the stats label is the formatted rendering of the
current counters. -/
def RPSInv (st : RPSState) : Prop :=
  st.total_rounds = st.player_score + st.computer_score + st.ties ∧
  st.detailed_stats_var =
    format_detailed_stats st.player_score st.computer_score st.ties st.total_rounds

/-! ## Support lemmas -/

theorem Frac.zero_add (v : Frac) : (Frac.ofNat 0).add v = v := by
  cases v with
  | mk n d => simp [Frac.ofNat, Frac.add]

/-- Python's one-pass precedence evaluation agrees with the two-pass
conventional evaluation: collapsing the pending multiplicative run and the
pending additive value tracked by `pyEvalLoop` is exactly `phase1` followed
by `phase2`. -/
theorem pyEvalLoop_eq_phases (ps : List (Op × Frac)) :
    ∀ acc isAdd term,
      pyEvalLoop acc isAdd term ps =
        (phase1 term ps).map (fun p => phase2 (applyAdd acc isAdd p.1) p.2) := by
  induction ps with
  | nil => intro acc isAdd term; simp [pyEvalLoop, phase1, phase2]
  | cons hd tl ih =>
    intro acc isAdd term
    obtain ⟨o, n⟩ := hd
    cases o with
    | mul => simpa [pyEvalLoop, phase1] using ih acc isAdd (term.mul n)
    | div =>
      by_cases h : n.num = 0
      · simp [pyEvalLoop, phase1, h]
      · simpa [pyEvalLoop, phase1, h] using ih acc isAdd (term.div n)
    | add =>
      have hl : pyEvalLoop acc isAdd term ((Op.add, n) :: tl) =
          pyEvalLoop (applyAdd acc isAdd term) true n tl := rfl
      rw [hl, ih]
      cases h : phase1 n tl with
      | none => simp [phase1, h]
      | some p =>
        obtain ⟨v, items⟩ := p
        simp [phase1, h, phase2, applyAdd]
    | sub =>
      have hl : pyEvalLoop acc isAdd term ((Op.sub, n) :: tl) =
          pyEvalLoop (applyAdd acc isAdd term) false n tl := rfl
      rw [hl, ih]
      cases h : phase1 n tl with
      | none => simp [phase1, h]
      | some p =>
        obtain ⟨v, items⟩ := p
        simp [phase1, h, phase2, applyAdd]

theorem pyEvalPairs_eq_convEval (n0 : Frac) (ps : List (Op × Frac)) :
    pyEvalPairs n0 ps = convEval n0 ps := by
  rw [pyEvalPairs, pyEvalLoop_eq_phases, convEval]
  cases h : phase1 n0 ps with
  | none => rfl
  | some p => simp [applyAdd, Frac.zero_add]

/-- A number literal accepted by the strict (Python 3) rule is the same
number under the spec grammar. -/
theorem flushNum_strict_le (buf : List Char) (n : ℕ)
    (h : flushNum true buf = some n) : flushNum false buf = some n := by
  by_cases hb : buf = []
  · simp [flushNum, hb] at h
  · by_cases hz : buf.head? = some '0' ∧ 1 < buf.length ∧
      buf.any (fun c => c != '0') = true
    · simp [flushNum, hb, hz] at h
    · simp [flushNum, hb, hz] at h ⊢
      exact h.2

/-- A token list accepted by the strict (Python 3) lexer is accepted, with
the same tokens, by the spec-grammar lexer. -/
theorem tokenizeAux_strict_le (cs : List Char) :
    ∀ buf ts, tokenizeAux true buf cs = some ts → tokenizeAux false buf cs = some ts := by
  induction cs with
  | nil =>
    intro buf ts h
    rw [tokenizeAux] at h ⊢
    by_cases hb : buf.isEmpty
    · rw [if_pos hb] at h ⊢; exact h
    · rw [if_neg hb] at h ⊢
      cases hf : flushNum true buf with
      | none => rw [hf] at h; simp at h
      | some n => rw [flushNum_strict_le buf n hf]; rw [hf] at h; exact h
  | cons c rest ih =>
    intro buf ts h
    rw [tokenizeAux] at h ⊢
    by_cases hd : c.isDigit
    · rw [if_pos hd] at h ⊢; exact ih _ _ h
    · rw [if_neg hd] at h ⊢
      cases hop : charOp c with
      | none => simp [hop] at h
      | some o =>
        simp only [hop] at h ⊢
        by_cases hb : buf.isEmpty
        · simp [hb] at h
        · simp only [hb, if_false] at h ⊢
          cases hf : flushNum true buf with
          | none => rw [hf] at h; simp at h
          | some n =>
            rw [flushNum_strict_le buf n hf]
            rw [hf] at h
            simp only [Option.some_bind] at h ⊢
            cases hrec : tokenizeAux true [] rest with
            | none => rw [hrec] at h; simp at h
            | some ts2 => rw [ih [] ts2 hrec]; rw [hrec] at h; exact h

theorem lexChars_strict_le (cs : List Char) (x : ℕ × List (Op × ℕ))
    (h : lexChars true cs = some x) : lexChars false cs = some x := by
  rw [lexChars, tokenize] at h ⊢
  cases ht : tokenizeAux true [] cs with
  | none => rw [ht] at h; simp at h
  | some ts => rw [tokenizeAux_strict_le cs [] ts ht]; rw [ht] at h; exact h

/-- Wherever the strict lexer succeeds, Python's evaluation and the
conventional evaluation of the expression string agree (in particular both
fail together, exactly on division by zero). -/
theorem pyEvalChars_eq_convEvalChars (cs : List Char)
    (h : ∃ x, lexChars true cs = some x) :
    pyEvalChars cs = convEvalChars cs := by
  obtain ⟨⟨n0, ps⟩, hx⟩ := h
  rw [pyEvalChars, convEvalChars, hx, lexChars_strict_le cs _ hx]
  exact pyEvalPairs_eq_convEval _ _

/-- Any string containing `=` is a syntax error for the tokenizer. -/
theorem tokenizeAux_eq_mem (cs : List Char) :
    ∀ buf strict, '=' ∈ cs → tokenizeAux strict buf cs = none := by
  induction cs with
  | nil => intro buf strict h; simp at h
  | cons c rest ih =>
    intro buf strict h
    rcases List.mem_cons.mp h with hc | hc
    · subst hc
      simp [tokenizeAux, charOp]
    · rw [tokenizeAux]
      by_cases hd : c.isDigit
      · rw [if_pos hd]; exact ih _ _ hc
      · rw [if_neg hd]
        cases hop : charOp c with
        | none => rfl
        | some o =>
          by_cases hb : buf.isEmpty
          · simp [hb]
          · simp [hb, ih [] strict hc]

/-- A successful evaluation means the (substituted) expression held no `=`
character. -/
theorem pyEvalChars_no_eq (cs : List Char) (r : Frac)
    (h : pyEvalChars cs = some r) : '=' ∉ cs := by
  intro hmem
  rw [pyEvalChars, lexChars, tokenize, tokenizeAux_eq_mem cs [] true hmem] at h
  simp at h

/-- Glyph substitution keeps `=` characters. -/
theorem replaceGlyphs_eq_mem (cs : List Char) (h : '=' ∈ cs) :
    '=' ∈ replaceGlyphs cs := by
  rw [replaceGlyphs]
  exact List.mem_map.mpr ⟨'=', h, by decide⟩

/-- Invariants of every reachable calculator state. -/
theorem runCalc_inv (P : CalcState → Prop) (h0 : P initCalc)
    (hstep : ∀ st c, P st → P (on_button_click st c)) :
    ∀ presses, P (runCalc presses) := by
  have key : ∀ (ps : List Char) (st : CalcState), P st → P (ps.foldl on_button_click st) := by
    intro ps
    induction ps with
    | nil => intro st h; simpa using h
    | cons c tl ih => intro st h; exact ih _ (hstep st c h)
  intro presses
  exact key presses initCalc h0

/-- Invariants of every reachable game state. -/
theorem runRPS_inv (P : RPSState → Prop) (h0 : P initRPS)
    (hstep : ∀ st ev, P st → P (rpsStep st ev)) :
    ∀ evs, P (runRPS evs) := by
  have key : ∀ (evs : List RPSEvent) (st : RPSState), P st → P (evs.foldl rpsStep st) := by
    intro evs
    induction evs with
    | nil => intro st h; simpa using h
    | cons ev tl ih => intro st h; exact ih _ (hstep st ev h)
  intro evs
  exact key evs initRPS h0

/-- The `=` branch of `on_button_click` when `eval` succeeds. -/
theorem press_eval_some (st : CalcState) (r : Frac)
    (h : pyEvalChars (replaceGlyphs st.expression) = some r) :
    on_button_click st '=' = ⟨st.expression ++ ['='], ratRepr r⟩ := by
  rw [on_button_click, if_neg (by decide), if_neg (by decide),
    if_neg (by decide : ¬('=' = 'C')), if_pos rfl, h]

/-- The `=` branch of `on_button_click` when `eval` raises. -/
theorem press_eval_none (st : CalcState)
    (h : pyEvalChars (replaceGlyphs st.expression) = none) :
    on_button_click st '=' = ⟨[], "Error".data⟩ := by
  rw [on_button_click, if_neg (by decide), if_neg (by decide),
    if_neg (by decide : ¬('=' = 'C')), if_pos rfl, h]

/-- A digit pressed right after a successful evaluation starts a fresh
expression. -/
theorem press_digit_after_eval (st : CalcState) (d : Char)
    (hd : calcDigits.contains d = true)
    (he : st.expression.getLast? = some '=') :
    on_button_click st d = ⟨[d], [d]⟩ := by
  rw [on_button_click, if_pos hd, if_pos (Or.inr he)]

/-- The four operator characters. -/
theorem ops_mem_cases (c : Char) (hc : calcOps.contains c = true) :
    c = '+' ∨ c = '-' ∨ c = '×' ∨ c = '÷' := by
  simp [calcOps] at hc
  simpa using hc

theorem ops_not_digit (c : Char) (hc : calcOps.contains c = true) :
    calcDigits.contains c = false := by
  rcases ops_mem_cases c hc with h | h | h | h <;> subst h <;> decide

theorem canAppendOp_false (cs : List Char)
    (h : cs = [] ∨ ∃ ch, cs.getLast? = some ch ∧ calcOps.contains ch = true) :
    canAppendOp cs = false := by
  rcases h with h | ⟨ch, hlast, hop⟩
  · subst h; rfl
  · rw [canAppendOp, hlast]
    simp
    simpa using hop

/-- The operator branch of `on_button_click` when the guard rejects. -/
theorem press_op_noop (st : CalcState) (c : Char)
    (hc : calcOps.contains c = true)
    (h : canAppendOp st.expression = false) :
    on_button_click st c = st := by
  rw [on_button_click, if_neg (by rw [ops_not_digit c hc]; decide), if_pos hc,
    if_neg (by rw [h]; decide)]

theorem rpsStep_inv (st : RPSState) (ev : RPSEvent) (h : RPSInv st) :
    RPSInv (rpsStep st ev) := by
  cases ev with
  | reset => exact ⟨rfl, rfl⟩
  | play p c =>
    by_cases hp : p ∈ CHOICES
    · simp only [rpsStep, play, if_neg (not_not_intro hp)]
      by_cases hw : decide_winner p c.toStr = "win"
      · simp only [if_pos hw]
        exact ⟨by obtain ⟨h1, h2⟩ := h; simp [RPSInv]; omega, rfl⟩
      · by_cases hl : decide_winner p c.toStr = "lose"
        · simp only [if_neg hw, if_pos hl]
          exact ⟨by obtain ⟨h1, h2⟩ := h; simp [RPSInv]; omega, rfl⟩
        · simp only [if_neg hw, if_neg hl]
          exact ⟨by obtain ⟨h1, h2⟩ := h; simp [RPSInv]; omega, rfl⟩
    · simpa [rpsStep, play, hp] using h

theorem mem_of_getLast?_eq (l : List Char) (a : Char) (h : l.getLast? = some a) :
    a ∈ l := by
  have hx : a ∈ l.getLast? := Option.mem_def.mpr h
  rcases List.mem_getLast?_eq_getLast hx with ⟨hne, heq⟩
  exact heq ▸ List.getLast_mem hne

/-- An `=` press leaves at most one `=` in the expression: on success the
expression held none (else `eval` would have raised) and exactly one is
appended; on failure the expression is cleared. -/
theorem press_eq_count_le_one (st : CalcState) :
    ((on_button_click st '=').expression.count '=') ≤ 1 := by
  cases h : pyEvalChars (replaceGlyphs st.expression) with
  | none => rw [press_eval_none st h]; simp
  | some r =>
    rw [press_eval_some st r h]
    have hnot : '=' ∉ st.expression := fun hm =>
      pyEvalChars_no_eq _ r h (replaceGlyphs_eq_mem _ hm)
    simp [List.count_append, List.count_eq_zero.mpr hnot]

/-- No button other than `=` ever adds an `=` to the expression. -/
theorem press_ne_count (st : CalcState) (c : Char) (h : c ≠ '=') :
    ((on_button_click st c).expression.count '=') ≤ st.expression.count '=' := by
  rw [on_button_click]
  split_ifs with h1 h2 h3 h4 h5
  · simp [List.count_singleton, Ne.symm h]
  · simp [List.count_append, List.count_singleton, Ne.symm h]
  · simp [List.count_append, List.count_singleton, Ne.symm h]
  · exact le_refl _
  · simp
  · exact le_refl _

/-- The two additive combinations keep integer values integer. -/
theorem applyAdd_den (acc term : Frac) (isAdd : Bool)
    (h1 : acc.den = 1) (h2 : term.den = 1) : (applyAdd acc isAdd term).den = 1 := by
  cases isAdd <;> simp [applyAdd, Frac.add, Frac.sub, h1, h2]

/-- Evaluating a division-free expression over integer operands yields an
integer (denominator 1): exactly the case in which Python's result is an
`int` and the embedding of its arithmetic and display is exact. -/
theorem pyEvalLoop_den_one (ps : List (Op × Frac)) :
    ∀ (acc term : Frac) (isAdd : Bool),
      (∀ p ∈ ps, p.1 ≠ Op.div ∧ p.2.den = 1) → acc.den = 1 → term.den = 1 →
      ∀ r, pyEvalLoop acc isAdd term ps = some r → r.den = 1 := by
  induction ps with
  | nil =>
    intro acc term isAdd hps hacc hterm r hr
    simp only [pyEvalLoop, Option.some.injEq] at hr
    rw [← hr]
    exact applyAdd_den acc term isAdd hacc hterm
  | cons hd tl ih =>
    intro acc term isAdd hps hacc hterm r hr
    obtain ⟨o, n⟩ := hd
    have hhd := hps (o, n) (List.mem_cons_self _ _)
    have htl : ∀ p ∈ tl, p.1 ≠ Op.div ∧ p.2.den = 1 := fun p hp =>
      hps p (List.mem_cons_of_mem _ hp)
    cases o with
    | mul =>
      simp only [pyEvalLoop] at hr
      have hn : n.den = 1 := hhd.2
      exact ih acc (term.mul n) isAdd htl hacc (by simp [Frac.mul, hterm, hn]) r hr
    | div => exact absurd rfl hhd.1
    | add =>
      simp only [pyEvalLoop] at hr
      exact ih (applyAdd acc isAdd term) n true htl
        (applyAdd_den acc term isAdd hacc hterm) hhd.2 r hr
    | sub =>
      simp only [pyEvalLoop] at hr
      exact ih (applyAdd acc isAdd term) n false htl
        (applyAdd_den acc term isAdd hacc hterm) hhd.2 r hr

/-- A successful evaluation of a division-free expression is an integer. -/
theorem pyEvalChars_den_one (cs : List Char) (n0 : ℕ) (ps : List (Op × ℕ)) (r : Frac)
    (hlex : lexChars true cs = some (n0, ps))
    (hdiv : ∀ p ∈ ps, p.1 ≠ Op.div)
    (h : pyEvalChars cs = some r) : r.den = 1 := by
  rw [pyEvalChars, hlex] at h
  simp only [pyEvalPairs] at h
  refine pyEvalLoop_den_one (fracPairs ps) (Frac.ofNat 0) (Frac.ofNat n0) true ?_ rfl rfl r h
  intro p hp
  rw [fracPairs] at hp
  obtain ⟨q, hq, rfl⟩ := List.mem_map.mp hp
  exact ⟨hdiv q hq, rfl⟩

/-- On an integer result, the display model is Python's `str` of the
`int`. -/
theorem ratRepr_den_one (r : Frac) (h : r.den = 1) :
    ratRepr r = (toString r.num).data := by
  simp [ratRepr, h]

/-! ## The claims -/

/-- Claim C1 (amended).  For every sequence of digit and operator button
presses producing a syntactically valid expression of two or more operands
with no parentheses whose operands are also valid Python 3 literals (no
leading zero followed by a non-zero digit), pressing evaluate applies
conventional precedence and left-to-right associativity (× and ÷ binding
tighter than + and −): the evaluation embedded from the program equals the
spec's conventional two-pass evaluation — both idealising division as exact
and failing together exactly on division by zero — and, whenever the
expression involves no division (so the program's result is a Python `int`
and the embedding is exact), the evaluate press displays exactly the
decimal rendering of the conventional integer result and appends the `=`
marker.  (Division results are Python floats approximating the
conventional value; float rounding and overflow are outside this
embedding.) -/
theorem c1_eval_matches_conventional (presses : List Char)
    (h : ValidPyExpr (runCalc presses).expression) :
    pyEvalChars (replaceGlyphs (runCalc presses).expression) =
      convEvalChars (replaceGlyphs (runCalc presses).expression) ∧
    ∀ n0 ps,
      lexChars true (replaceGlyphs (runCalc presses).expression) = some (n0, ps) →
      (∀ p ∈ ps, p.1 ≠ Op.div) →
      ∀ r : Frac,
        convEvalChars (replaceGlyphs (runCalc presses).expression) = some r →
          r.den = 1 ∧
          on_button_click (runCalc presses) '=' =
            ⟨(runCalc presses).expression ++ ['='], (toString r.num).data⟩ := by
  obtain ⟨m0, qs, hlex, hne⟩ := h
  have hagree := pyEvalChars_eq_convEvalChars _ ⟨(m0, qs), hlex⟩
  refine ⟨hagree, fun n0 ps hlex2 hdiv r hr => ?_⟩
  have hpy : pyEvalChars (replaceGlyphs (runCalc presses).expression) = some r :=
    hagree.trans hr
  have hden := pyEvalChars_den_one _ n0 ps r hlex2 hdiv hpy
  have h1 := press_eval_some _ r hpy
  rw [ratRepr_den_one r hden] at h1
  exact ⟨hden, h1⟩

/-- Claim C1 witness: the press sequence 2 × 3 + 4 builds a valid
division-free expression: the evaluators agree and evaluate displays the
conventional result 10. -/
theorem c1_witness :
    pyEvalChars (replaceGlyphs (runCalc ['2', '×', '3', '+', '4']).expression) =
      convEvalChars (replaceGlyphs (runCalc ['2', '×', '3', '+', '4']).expression) ∧
    on_button_click (runCalc ['2', '×', '3', '+', '4']) '=' =
      ⟨(runCalc ['2', '×', '3', '+', '4']).expression ++ ['='],
        (toString (10 : ℤ)).data⟩ := by
  have h := c1_eval_matches_conventional ['2', '×', '3', '+', '4']
    ⟨2, [(Op.mul, 3), (Op.add, 4)], by decide, by decide⟩
  exact ⟨h.1,
    (h.2 2 [(Op.mul, 3), (Op.add, 4)] (by decide) (by decide) ⟨10, 1⟩ (by decide)).2⟩

/-- Claim C1 counterexample to the claim as stated: the press sequence
1 + 0 2 builds the expression "1+02", syntactically valid for the spec's
grammar with value 3, yet pressing evaluate displays "Error" (Python 3
rejects the leading-zero literal "02"), not the numeric result 3. -/
theorem c1_counterexample :
    ValidSpecExpr (runCalc ['1', '+', '0', '2']).expression ∧
    convEvalChars (replaceGlyphs (runCalc ['1', '+', '0', '2']).expression) =
      some ⟨3, 1⟩ ∧
    on_button_click (runCalc ['1', '+', '0', '2']) '=' = ⟨[], "Error".data⟩ :=
  ⟨⟨1, [(Op.add, 2)], by decide, by decide⟩, by decide, by decide⟩

/-- Claim C2.  `decide_winner` on two valid choices returns tie exactly
when the choices are equal, follows the fixed cyclic table rock beats
scissors, paper beats rock, scissors beats paper, and for distinct valid
choices exactly one direction wins. -/
theorem c2_decide_winner_table (a b : String)
    (ha : a ∈ CHOICES) (hb : b ∈ CHOICES) :
    (decide_winner a b = "tie" ↔ a = b) ∧
    (a ≠ b → (decide_winner a b = "win" ↔ ¬decide_winner b a = "win")) ∧
    (a ≠ b → (decide_winner a b = "win" ↔
      (a, b) ∈ [("rock", "scissors"), ("paper", "rock"), ("scissors", "paper")])) := by
  simp only [CHOICES, List.mem_cons, List.mem_singleton, List.not_mem_nil, or_false] at ha hb
  rcases ha with rfl | rfl | rfl <;> rcases hb with rfl | rfl | rfl <;>
    exact (by decide)

/-- Claim C2 witness: the theorem applied at rock versus scissors. -/
theorem c2_witness :
    (decide_winner "rock" "scissors" = "tie" ↔ ("rock" : String) = "scissors") ∧
    (("rock" : String) ≠ "scissors" →
      (decide_winner "rock" "scissors" = "win" ↔ ¬decide_winner "scissors" "rock" = "win")) ∧
    (("rock" : String) ≠ "scissors" →
      (decide_winner "rock" "scissors" = "win" ↔
        (("rock" : String), ("scissors" : String)) ∈
          [("rock", "scissors"), ("paper", "rock"), ("scissors", "paper")])) :=
  c2_decide_winner_table "rock" "scissors" (by decide) (by decide)

/-- Claim C3.  After any sequence of completed rounds and resets from the
initial state, `total_rounds` equals `player_wins + computer_wins + ties`,
and the displayed statistics line renders the current counters — in
particular the win rate as `player_wins / total_rounds * 100` rounded to
one decimal place. -/
theorem c3_score_invariant (evs : List RPSEvent) :
    (runRPS evs).total_rounds =
      (runRPS evs).player_score + (runRPS evs).computer_score + (runRPS evs).ties ∧
    (runRPS evs).detailed_stats_var =
      format_detailed_stats (runRPS evs).player_score (runRPS evs).computer_score
        (runRPS evs).ties (runRPS evs).total_rounds :=
  runRPS_inv RPSInv ⟨rfl, rfl⟩ rpsStep_inv evs

/-- Claim C4.  Whenever evaluation fails, pressing evaluate displays the
literal "Error" and resets the expression to empty; each failure reason the
claim names is exhibited on a reachable state: division by zero (presses
5 ÷ 0 =), trailing operator (1 + =), empty expression (= alone), and a
malformed expression (1 + 1 = + 2 =, whose retained `=` is a syntax
error). -/
theorem c4_error_collapse :
    (∀ st : CalcState, pyEvalChars (replaceGlyphs st.expression) = none →
      on_button_click st '=' = ⟨[], "Error".data⟩) ∧
    runCalc ['5', '÷', '0', '='] = ⟨[], "Error".data⟩ ∧
    runCalc ['1', '+', '='] = ⟨[], "Error".data⟩ ∧
    runCalc ['='] = ⟨[], "Error".data⟩ ∧
    runCalc ['1', '+', '1', '=', '+', '2', '='] = ⟨[], "Error".data⟩ :=
  ⟨fun st h => press_eval_none st h, by decide, by decide, by decide, by decide⟩

/-- Claim C4 witness: the trailing-operator expression "1+" fails and
collapses to the error state. -/
theorem c4_witness :
    pyEvalChars (replaceGlyphs ("1+".data)) = none ∧
    on_button_click ⟨"1+".data, "1+".data⟩ '=' = ⟨[], "Error".data⟩ :=
  ⟨by decide, c4_error_collapse.1 ⟨"1+".data, "1+".data⟩ (by decide)⟩

/-- Claim C5.  `play` with a choice outside rock/paper/scissors surfaces
the blocking error notification and leaves the entire state — all four
counters and every display string — unchanged. -/
theorem c5_invalid_choice_noop (st : RPSState) (p : String) (c : Choice)
    (hp : p ∉ CHOICES) :
    play st p c = (st, some (invalidChoiceMsg p)) := by
  rw [play, if_pos hp]

/-- Claim C5 witness: playing "lizard" in the initial state. -/
theorem c5_witness :
    play initRPS "lizard" Choice.rock = (initRPS, some (invalidChoiceMsg "lizard")) :=
  c5_invalid_choice_noop initRPS "lizard" Choice.rock (by decide)

/-- Claim C6.  On a successful evaluation of a division-free expression —
the case in which the program's result is a Python `int` and the embedding
of its arithmetic and display is exact — the displayed value becomes the
decimal rendering of the numeric result and a trailing `=` is appended to
the retained expression, so the next digit press replaces the expression;
the example presses 1 2 + 8 = display "20" and leave the internal
expression "12+8=".  (The display of a division result is a Python float,
outside this embedding.) -/
theorem c6_success_appends_eq :
    (∀ (st : CalcState) (n0 : ℕ) (ps : List (Op × ℕ)) (r : Frac),
      lexChars true (replaceGlyphs st.expression) = some (n0, ps) →
      (∀ p ∈ ps, p.1 ≠ Op.div) →
      pyEvalChars (replaceGlyphs st.expression) = some r →
        r.den = 1 ∧
        on_button_click st '=' = ⟨st.expression ++ ['='], (toString r.num).data⟩ ∧
        ∀ d, calcDigits.contains d = true →
          on_button_click (on_button_click st '=') d = ⟨[d], [d]⟩) ∧
    runCalc ['1', '2', '+', '8', '='] = ⟨"12+8=".data, "20".data⟩ := by
  constructor
  · intro st n0 ps r hlex hdiv h
    have hden := pyEvalChars_den_one _ n0 ps r hlex hdiv h
    have h1 := press_eval_some st r h
    rw [ratRepr_den_one r hden] at h1
    refine ⟨hden, h1, fun d hd => ?_⟩
    rw [h1]
    exact press_digit_after_eval _ d hd (by simp)
  · decide

/-- Claim C6 witness: evaluating "12+8" succeeds with the integer 20,
displays "20", appends the marker, and a following digit press starts
fresh. -/
theorem c6_witness :
    pyEvalChars (replaceGlyphs "12+8".data) = some ⟨20, 1⟩ ∧
    on_button_click ⟨"12+8".data, "12+8".data⟩ '=' =
      ⟨"12+8=".data, (toString (20 : ℤ)).data⟩ ∧
    on_button_click (on_button_click ⟨"12+8".data, "12+8".data⟩ '=') '1' =
      ⟨['1'], ['1']⟩ := by
  have h := c6_success_appends_eq.1 ⟨"12+8".data, "12+8".data⟩ 12 [(Op.add, 8)]
    ⟨20, 1⟩ (by decide) (by decide) (by decide)
  exact ⟨by decide, h.2.1, h.2.2 '1' (by decide)⟩

/-- Claim C7.  An operator press with an empty expression, or with an
expression already ending in an operator, is a no-op: the state (expression
and display) is unchanged. -/
theorem c7_operator_noop (st : CalcState) (c : Char)
    (hc : calcOps.contains c = true)
    (h : st.expression = [] ∨
      ∃ ch, st.expression.getLast? = some ch ∧ calcOps.contains ch = true) :
    on_button_click st c = st :=
  press_op_noop st c hc (canAppendOp_false st.expression h)

/-- Claim C7 witness: after "3+", pressing the different operator "-"
leaves the state "3+" unchanged. -/
theorem c7_witness :
    on_button_click ⟨"3+".data, "3+".data⟩ '-' = ⟨"3+".data, "3+".data⟩ :=
  c7_operator_noop ⟨"3+".data, "3+".data⟩ '-' (by decide)
    (Or.inr ⟨'+', by decide, by decide⟩)

/-- Claim C8 (amended).  `reset_score` zeroes all four counters regardless
of prior history, restores the computer-move text to its initial
placeholder, sets the round-result text to "Scores reset. Make your move!"
(a reset acknowledgement, not the initial placeholder), and the statistics
display immediately reads a win rate of "0.0%". -/
theorem c8_reset_state (st : RPSState) :
    reset_score st =
      { player_score := 0, computer_score := 0, ties := 0, total_rounds := 0,
        score_var := format_score 0 0,
        detailed_stats_var := format_detailed_stats 0 0 0 0,
        result_var := "Scores reset. Make your move!",
        computer_var := "Computer hasn't played yet." } ∧
    (reset_score st).detailed_stats_var =
      "Wins: 0 | Losses: 0 | Ties: 0 | Total: 0 | Win Rate: " ++ "0.0%" := by
  refine ⟨rfl, ?_⟩
  show format_detailed_stats 0 0 0 0 =
    "Wins: 0 | Losses: 0 | Ties: 0 | Total: 0 | Win Rate: " ++ "0.0%"
  decide

/-- Claim C8 counterexample to the claim as stated: the round-result text
after a reset is "Scores reset. Make your move!", not the initial
placeholder "Make your move!". -/
theorem c8_counterexample :
    (reset_score initRPS).result_var = "Scores reset. Make your move!" ∧
    initRPS.result_var = "Make your move!" ∧
    (reset_score initRPS).result_var ≠ initRPS.result_var :=
  ⟨rfl, rfl, by decide⟩

/-- Claim C9 (amended).  Every reachable expression contains at most one
`=` character; no press other than evaluate ever adds one, and an evaluate
press leaves at most one (appending it exactly on success, to an
expression that contained none).  The marker is no longer guaranteed to
stay final: an operator press after evaluation pushes it mid-string. -/
theorem c9_at_most_one_eq :
    (∀ presses : List Char, ((runCalc presses).expression.count '=') ≤ 1) ∧
    (∀ (st : CalcState) (c : Char), c ≠ '=' →
      ((on_button_click st c).expression.count '=') ≤ st.expression.count '=') ∧
    (∀ st : CalcState, ((on_button_click st '=').expression.count '=') ≤ 1) := by
  refine ⟨?_, fun st c h => press_ne_count st c h, fun st => press_eq_count_le_one st⟩
  intro presses
  refine runCalc_inv (fun st => st.expression.count '=' ≤ 1) (by decide) ?_ presses
  intro st c hst
  by_cases hc : c = '='
  · subst hc; exact press_eq_count_le_one st
  · exact le_trans (press_ne_count st c hc) hst

/-- Claim C9 witness: an operator press on the just-evaluated state keeps
its single `=`. -/
theorem c9_witness :
    ((on_button_click ⟨"1+1=".data, "2".data⟩ '+').expression.count '=') ≤
      ("1+1=".data.count '=') :=
  c9_at_most_one_eq.2.1 ⟨"1+1=".data, "2".data⟩ '+' (by decide)

/-- Claim C9 counterexample to the claim as stated: the reachable press
sequence 1 + 1 = + leaves the expression "1+1=+", in which the `=` marker
is not the final character. -/
theorem c9_counterexample :
    (runCalc ['1', '+', '1', '=', '+']).expression = "1+1=+".data ∧
    '=' ∈ (runCalc ['1', '+', '1', '=', '+']).expression.dropLast := by
  decide

/-- Claim C10.  Pressing evaluate on a just-evaluated expression (one
ending in the `=` marker) always takes the failure branch: the display
becomes "Error" and the expression is reset to empty. -/
theorem c10_reeval_fails (st : CalcState)
    (h : st.expression.getLast? = some '=') :
    on_button_click st '=' = ⟨[], "Error".data⟩ := by
  apply press_eval_none
  cases heval : pyEvalChars (replaceGlyphs st.expression) with
  | none => rfl
  | some r =>
    exact absurd (replaceGlyphs_eq_mem _ (mem_of_getLast?_eq _ _ h))
      (pyEvalChars_no_eq _ r heval)

/-- Claim C10 witness: re-evaluating "1+1=" collapses to the error
state. -/
theorem c10_witness :
    on_button_click ⟨"1+1=".data, "2".data⟩ '=' = ⟨[], "Error".data⟩ :=
  c10_reeval_fails ⟨"1+1=".data, "2".data⟩ (by decide)
